import Mathlib

/-!
# kimo: correlation join, agent port lookup, response assembly

A shallow embedding of `server/request.go` and `daemon/daemon.go`.

* Go slices are lists; a slice that may be `nil` is an `Option (List _)`.
* A Go `error` is an `Option String` (`none` is the `nil` error); a function returning
  `(v, error)` returns a pair.
* `uint32` and `int32` values are `Nat` and `Int`; conversions reduce modulo `2^32`.
* Library calls (`net`, `strconv`, `gopsutil`, `os`) are either passed in as collaborators or
  written out after the Go standard library.
-/

set_option autoImplicit false

namespace Kimo

/-! ## Data model -/

/-- Outcome of running a Go function body: it returns a value, or a run-time panic unwinds it. -/
inductive Run (α : Type) where
  | done (a : α)
  | panic (msg : String)
  deriving DecidableEq, Repr

/-- Modelled from the spec: `types.IPPort`, the Address of the data model; its declaration is
outside the sources at hand, the fields `IP` and `Port` are the ones `request.go` reads. -/
structure IPPort where
  IP : String
  Port : Nat
  deriving DecidableEq, Repr

/-- The `sql.NullString` of Go: a string and a validity flag. -/
structure NullString where
  String : String
  Valid : Bool
  deriving DecidableEq, Repr

/-- Modelled from the spec: `MysqlProcess`, the SessionRecord of the data model; its declaration
is outside the sources at hand, the fields are the ones `request.go` reads. -/
structure MysqlProcess where
  ID : Int
  User : String
  DB : NullString
  Command : String
  Time : String
  State : NullString
  Info : NullString
  Address : IPPort
  deriving DecidableEq, Repr

/-- Modelled from the spec: `TCPProxyRecord`, the RoutingRecord of the data model (an origin
address and a proxy-facing address); `request.go` reads the proxy-facing one as `ProxyOut`. -/
structure TCPProxyRecord where
  Origin : IPPort
  ProxyOut : IPPort
  deriving DecidableEq, Repr

/-- The `types.Addr` built in `Daemon.conns`. -/
structure Addr where
  Host : String
  Port : Nat
  deriving DecidableEq, Repr

/-- The `types.DaemonProcess` built in `Daemon.conns` (AgentProcessInfo in the data model). -/
structure DaemonProcess where
  Laddr : Addr
  Status : String
  Pid : Int
  Name : String
  CmdLine : List String
  Hostname : String
  deriving DecidableEq, Repr

/-- The Go zero value `types.DaemonProcess{}`. -/
def DaemonProcess.zero : DaemonProcess :=
  { Laddr := { Host := "", Port := 0 }, Status := "", Pid := 0, Name := "", CmdLine := [],
    Hostname := "" }

/-- Modelled from the spec: `DaemonProcess.IsEmpty` is declared outside the sources at hand. The
data model says that the empty sentinel value stands for "no matching process found"; the
sentinel `Daemon.conns` starts from is the zero value, so a record is empty when every field
holds its zero value. The handler takes the method as a parameter; this definition is the one
the examples run with. -/
def DaemonProcess.IsEmpty (dp : DaemonProcess) : Bool :=
  decide (dp = DaemonProcess.zero)

/-- Modelled from the spec: `KimoProcess`, the JoinedRecord of the data model (session, routing
record, agent info or the empty sentinel); its declaration is outside the sources at hand. The
back references `KimoRequest` and `Server` that `InitializeKimoProcesses` stores are left out. -/
structure KimoProcess where
  DaemonProcess : DaemonProcess
  MysqlProcess : MysqlProcess
  TCPProxyRecord : TCPProxyRecord
  deriving DecidableEq, Repr

/-! ## `server/request.go`: the correlation join -/

/-- The function `findHostIP`. `ParseIP host` stands for `net.ParseIP(host)` followed by
`String()` (so `none` is the `nil` IP), `LookupIP host` for `net.LookupIP(host)` with every
address already printed by `String()`. Indexing `ips[0]` on an empty slice panics; the resolver
of Go reports a name without addresses as an error, so that branch needs a lookup that breaks
that promise. -/
def findHostIP (ParseIP : String → Option String)
    (LookupIP : String → List String × Option String) (host : String) :
    Run (String × Option String) :=
  match ParseIP host with
  | none =>
    match LookupIP host with
    | (_, some err) => Run.done ("", some err)
    | ([], none) => Run.panic "runtime error: index out of range [0] with length 0"
    | (ip0 :: _, none) => Run.done (ip0, none)
  | some ip => Run.done (ip, none)

/-- The `for _, pr := range proxyRecords` loop of `findTCPProxyRecord`. -/
def findTCPProxyRecord.scan (ipAddr : String) (port : Nat) :
    List TCPProxyRecord → Option TCPProxyRecord
  | [] => none
  | pr :: rest =>
    if pr.ProxyOut.IP = ipAddr ∧ pr.ProxyOut.Port = port then some pr
    else findTCPProxyRecord.scan ipAddr port rest

/-- The method `findTCPProxyRecord`; `none` is the `nil` record. The call of `findHostIP` goes
through the parameter `hostIP`. -/
def findTCPProxyRecord (hostIP : String → Run (String × Option String)) (addr : IPPort)
    (proxyRecords : List TCPProxyRecord) : Run (Option TCPProxyRecord) :=
  match hostIP addr.IP with
  | Run.panic msg => Run.panic msg
  | Run.done (_, some _) => Run.done none
  | Run.done (ipAddr, none) => Run.done (findTCPProxyRecord.scan ipAddr addr.Port proxyRecords)

/-- The record appended by `InitializeKimoProcesses`; the agent info is not set yet. -/
def newKimoProcess (mp : MysqlProcess) (tpr : TCPProxyRecord) : KimoProcess :=
  { DaemonProcess := DaemonProcess.zero, MysqlProcess := mp, TCPProxyRecord := tpr }

/-- The method `InitializeKimoProcesses`, as explicit state passing: `kps` is
`kr.KimoProcesses` on entry, the result is `kr.KimoProcesses` on return and the returned error. -/
def InitializeKimoProcesses (hostIP : String → Run (String × Option String))
    (kps : List KimoProcess) :
    List MysqlProcess → List TCPProxyRecord → Run (List KimoProcess × Option String)
  | [], _ => Run.done (kps, none)
  | mp :: rest, tprs =>
    match findTCPProxyRecord hostIP mp.Address tprs with
    | Run.panic msg => Run.panic msg
    | Run.done none => InitializeKimoProcesses hostIP kps rest tprs
    | Run.done (some tpr) =>
      InitializeKimoProcesses hostIP (kps ++ [newKimoProcess mp tpr]) rest tprs

/-- A canonicalization function standing for `findHostIP`: it always returns. -/
def returning (canon : String → String × Option String) (host : String) :
    Run (String × Option String) :=
  Run.done (canon host)

/-! ## `strconv`: the two parsers the sources call, written out after the Go library -/

/-- The two causes a `strconv.NumError` carries: `ErrSyntax` and `ErrRange`. -/
inductive NumError where
  | ErrSyntax
  | ErrRange
  deriving DecidableEq, Repr

/-- The helper `lower` of `strconv`: `c | ('x' - 'X')`. -/
def lower (c : Nat) : Nat := c ||| 0x20

/-- The `switch` in the loop of `strconv.ParseUint` that turns a character into a digit value
(the underscore case needs base 0 and is not reachable with base 10); `none` is the `default`
branch. Strings are lists of characters: a character outside ASCII takes the `default` branch,
as its first UTF-8 byte does. -/
def ParseUint.digit (c : Char) : Option Nat :=
  if 48 ≤ c.toNat ∧ c.toNat ≤ 57 then some (c.toNat - 48)
  else if 97 ≤ lower c.toNat ∧ lower c.toNat ≤ 122 then some (lower c.toNat - 97 + 10)
  else none

/-- The loop of `strconv.ParseUint` for base 10: `n` is the `uint64` accumulator, `maxVal` is
`1<<bitSize - 1`, the cutoff is `maxUint64/10 + 1`. -/
def ParseUint.loop (maxVal : Nat) : Nat → List Char → Nat × Option NumError
  | n, [] => (n, none)
  | n, c :: rest =>
    match ParseUint.digit c with
    | none => (0, some NumError.ErrSyntax)
    | some d =>
      if d ≥ 10 then (0, some NumError.ErrSyntax)
      else if n ≥ (2 ^ 64 - 1) / 10 + 1 then (maxVal, some NumError.ErrRange)
      else
        let m := (n * 10) % 2 ^ 64
        let n1 := (m + d) % 2 ^ 64
        if n1 < m ∨ n1 > maxVal then (maxVal, some NumError.ErrRange)
        else ParseUint.loop maxVal n1 rest

/-- The call `strconv.ParseUint(s, 10, bitSize)` for `0 < bitSize ≤ 64`: the value and the
error, the value being `0` after a syntax error and `1<<bitSize - 1` after a range error. -/
def ParseUint (s : List Char) (bitSize : Nat) : Nat × Option NumError :=
  if s = [] then (0, some NumError.ErrSyntax)
  else ParseUint.loop (2 ^ bitSize - 1) 0 s

/-- The call `strconv.ParseInt(s, 10, bitSize)` for `0 < bitSize ≤ 64`. -/
def ParseInt (s : List Char) (bitSize : Nat) : Int × Option NumError :=
  match s with
  | [] => (0, some NumError.ErrSyntax)
  | c :: rest =>
    let neg : Bool := c = '-'
    let s1 : List Char := if c = '+' then rest else if c = '-' then rest else c :: rest
    let r := ParseUint s1 bitSize
    if r.2 ≠ none ∧ r.2 ≠ some NumError.ErrRange then (0, r.2)
    else
      let cutoff : Nat := 2 ^ (bitSize - 1)
      if neg = false ∧ r.1 ≥ cutoff then (((cutoff - 1 : Nat) : Int), some NumError.ErrRange)
      else if neg = true ∧ r.1 > cutoff then (-(cutoff : Int), some NumError.ErrRange)
      else ((if neg then -(r.1 : Int) else (r.1 : Int)), none)

/-! ## `daemon/daemon.go`: the agent -/

/-- The `gopsutilNet.Addr` of a connection. -/
structure gopsutilNet.Addr where
  IP : String
  Port : Nat
  deriving DecidableEq, Repr

/-- The fields of `gopsutilNet.ConnectionStat` that `Daemon.conns` reads. -/
structure gopsutilNet.ConnectionStat where
  Laddr : gopsutilNet.Addr
  Status : String
  Pid : Int
  deriving DecidableEq, Repr

/-- A `gopsutilProcess.Process` as `Daemon.conns` sees it: its pid and what its methods `Name()`
and `CmdlineSlice()` return (a value and an error). -/
structure gopsutilProcess.Process where
  Pid : Int
  Name : String × Option String
  CmdlineSlice : List String × Option String
  deriving DecidableEq, Repr

/-- What a handler wrote: `http.Error(w, msg, code)`, or the JSON encoding of a record with the
default status 200. -/
inductive Response where
  | error (msg : String) (code : Nat)
  | json (dp : DaemonProcess)
  deriving DecidableEq, Repr

/-- The HTTP status code of a response. -/
def Response.status : Response → Nat
  | Response.error _ code => code
  | Response.json _ => 200

/-- The method `Daemon.parsePortParam`; `query` is `req.URL.Query()`, a map from parameter names
to their values. -/
def Daemon.parsePortParam (query : String → Option (List String)) : Nat × Option NumError :=
  match query "port" with
  | none => (0, none)
  | some [] => (0, none)
  | some (p0 :: _) =>
    let r := ParseInt p0.toList 32
    if r.2 ≠ none then (0, r.2)
    else ((r.1 % 2 ^ 32).toNat, none)

/-- The method `Daemon.findProcess`; `none` is the `nil` process. -/
def Daemon.findProcess (pid : Int) :
    List gopsutilProcess.Process → Option gopsutilProcess.Process
  | [] => none
  | process :: rest => if process.Pid = pid then some process else Daemon.findProcess pid rest

/-- The tail of the loop body of `Daemon.conns`, from `process.Name()` to the assignment of
`dp`: the record built for the connection `conn` and its process. `Hostname` is what
`os.Hostname()` returns. -/
def Daemon.conns.build (conn : gopsutilNet.ConnectionStat) (process : gopsutilProcess.Process)
    (Hostname : String × Option String) : DaemonProcess :=
  let name := if process.Name.2 ≠ none then "" else process.Name.1
  let cls := process.CmdlineSlice.1
  let hostname := if Hostname.2 ≠ none then "UNKNOWN" else Hostname.1
  { Laddr := { Host := conn.Laddr.IP, Port := conn.Laddr.Port }, Status := conn.Status,
    Pid := conn.Pid, Name := name, CmdLine := cls, Hostname := hostname }

/-- The `for _, conn := range connections` loop of `Daemon.conns`; the result is `dp` after the
loop (the loop ends at the first record it builds). `err` is the outer error variable the loop
body tests. -/
def Daemon.conns.scan (port : Nat) (err : Option String)
    (processes : List gopsutilProcess.Process) (Hostname : String × Option String) :
    List gopsutilNet.ConnectionStat → DaemonProcess
  | [] => DaemonProcess.zero
  | conn :: rest =>
    if conn.Laddr.Port ≠ port then Daemon.conns.scan port err processes Hostname rest
    else
      let process := Daemon.findProcess conn.Pid processes
      if err ≠ none then Daemon.conns.scan port err processes Hostname rest
      else
        match process with
        | none => Daemon.conns.scan port err processes Hostname rest
        | some process => Daemon.conns.build conn process Hostname

/-- The handler `Daemon.conns`. `Connections` and `Processes` are what
`gopsutilNet.Connections("all")` and `gopsutilProcess.Processes()` return. When the loop runs,
the outer `err` is the `nil` error of `Processes()`. The method `IsEmpty` of the record, which
is declared outside the sources at hand, is the parameter `isEmpty`. -/
def Daemon.conns (isEmpty : DaemonProcess → Bool) (query : String → Option (List String))
    (Connections : List gopsutilNet.ConnectionStat × Option String)
    (Processes : List gopsutilProcess.Process × Option String)
    (Hostname : String × Option String) : Response :=
  let r := Daemon.parsePortParam query
  if r.2 ≠ none then Response.error "port param is required" 400
  else
    match Connections with
    | (_, some e) => Response.error e 500
    | (connections, none) =>
      match Processes with
      | (_, some e) => Response.error e 500
      | (processes, none) =>
        let dp := Daemon.conns.scan r.1 none processes Hostname connections
        if isEmpty dp then Response.error "process not found!" 404
        else Response.json dp

/-! ## `server/request.go`: the join barrier and the response -/

/-- What one `select` of `Setup` can receive: a session snapshot on `mysqlProcsC`, a routing
snapshot on `proxyRecordsC` (a snapshot is a slice, `none` being the `nil` slice), an error on
`errC`, or the end of the context with its `ctx.Err()`. -/
inductive Event where
  | mysqlProcs (mps : Option (List MysqlProcess))
  | proxyRecords (tprs : Option (List TCPProxyRecord))
  | err (e : String)
  | ctxDone (e : String)
  deriving DecidableEq, Repr

/-- How a run of `Setup` over a sequence of events ends: still waiting in `select` when the
events are used up, or returned. `explicitCancel` tells whether `cancel()` was called in the
loop (the deferred `cancel()` runs on every return besides); `r` is `kr.KimoProcesses` and the
returned error, or the panic raised by the join. -/
inductive SetupResult where
  | blocked
  | returned (explicitCancel : Bool) (r : Run (List KimoProcess × Option String))
  deriving DecidableEq, Repr

/-- The `for` loop of `Setup` over the events its `select` receives in order. -/
def Setup.loop (hostIP : String → Run (String × Option String)) (kps : List KimoProcess) :
    Option (List MysqlProcess) → Option (List TCPProxyRecord) → List Event → SetupResult
  | some mysqlProcesses, some tcpProxyRecords, _ =>
    SetupResult.returned false (InitializeKimoProcesses hostIP kps mysqlProcesses tcpProxyRecords)
  | _, _, [] => SetupResult.blocked
  | _, tcpProxyRecords, Event.mysqlProcs mps :: rest =>
    Setup.loop hostIP kps mps tcpProxyRecords rest
  | mysqlProcesses, _, Event.proxyRecords tprs :: rest =>
    Setup.loop hostIP kps mysqlProcesses tprs rest
  | _, _, Event.err e :: _ => SetupResult.returned true (Run.done (kps, some e))
  | _, _, Event.ctxDone e :: _ => SetupResult.returned false (Run.done (kps, some e))

/-- The method `Setup`: both snapshot variables start `nil`. -/
def Setup (hostIP : String → Run (String × Option String)) (kps : List KimoProcess)
    (events : List Event) : SetupResult :=
  Setup.loop hostIP kps none none events

/-- The response record `Process` of `request.go`. -/
structure Process where
  ID : Int
  MysqlUser : String
  DB : String
  Command : String
  Time : Nat
  State : String
  Info : String
  CmdLine : List String
  Pid : Int
  Host : String
  deriving DecidableEq, Repr

/-- The struct `KimoServerResponse`. -/
structure KimoServerResponse where
  Processes : List Process
  deriving DecidableEq, Repr

/-- The body of the loop of `ReturnResponse`: the record appended for `kp`. The error of
`ParseUint` is only logged; `uint32(ut)` keeps the low 32 bits. -/
def ReturnResponse.record (kp : KimoProcess) : Process :=
  let r := ParseUint kp.MysqlProcess.Time.toList 32
  let t := r.1 % 2 ^ 32
  { ID := kp.MysqlProcess.ID, MysqlUser := kp.MysqlProcess.User,
    DB := kp.MysqlProcess.DB.String, Command := kp.MysqlProcess.Command, Time := t,
    State := kp.MysqlProcess.State.String, Info := kp.MysqlProcess.Info.String,
    CmdLine := kp.DaemonProcess.CmdLine, Pid := kp.DaemonProcess.Pid,
    Host := kp.DaemonProcess.Hostname }

/-- The `for _, kp := range kr.KimoProcesses` loop of `ReturnResponse`. -/
def ReturnResponse.loop (processes : List Process) : List KimoProcess → List Process
  | [] => processes
  | kp :: rest => ReturnResponse.loop (processes ++ [ReturnResponse.record kp]) rest

/-- The method `ReturnResponse`: the value it encodes into the response body. -/
def ReturnResponse (kps : List KimoProcess) : KimoServerResponse :=
  { Processes := ReturnResponse.loop [] kps }

/-! ## Auxiliary definitions used to state the properties -/

/-- The record, if any, that one turn of the loop of `InitializeKimoProcesses` appends for the
session `mp` when `findHostIP` is the returning function `canon`. -/
def joinOne (canon : String → String × Option String) (tprs : List TCPProxyRecord)
    (mp : MysqlProcess) : Option KimoProcess :=
  match canon mp.Address.IP with
  | (_, some _) => none
  | (ipAddr, none) =>
    (findTCPProxyRecord.scan ipAddr mp.Address.Port tprs).map (newKimoProcess mp)

/-- A resolver for the examples: the host name `proxy-1` resolves to `10.0.0.5`, every other
host is taken as an IP literal and returned unchanged. -/
def exampleCanon (host : String) : String × Option String :=
  if host = "proxy-1" then ("10.0.0.5", none) else (host, none)

/-- A session for the examples, with the peer address `ip:port`. -/
def exampleSession (id : Int) (ip : String) (port : Nat) : MysqlProcess :=
  { ID := id, User := "app", DB := { String := "shop", Valid := true }, Command := "Query",
    Time := "120", State := { String := "", Valid := false },
    Info := { String := "", Valid := false }, Address := { IP := ip, Port := port } }

/-- The routing record of the end-to-end scenario: origin `10.0.0.9:22001`, proxy-facing
address `ip:port`. -/
def exampleRecord (ip : String) (port : Nat) : TCPProxyRecord :=
  { Origin := { IP := "10.0.0.9", Port := 22001 }, ProxyOut := { IP := ip, Port := port } }

/-- The query `port=<value>` of a request to `/conns`. -/
def portQuery (value : String) (key : String) : Option (List String) :=
  if key = "port" then some [value] else none

/-- The query of a request to `/conns` that carries no parameter. -/
def emptyQuery (_ : String) : Option (List String) := none

/-- What the handler writes once the scan has ended with the record `dp`. -/
def Daemon.conns.respond (isEmpty : DaemonProcess → Bool) (dp : DaemonProcess) : Response :=
  if isEmpty dp then Response.error "process not found!" 404 else Response.json dp

/-- A connection for the examples: local address `0.0.0.0:port`, owned by `pid`. -/
def exampleConn (port : Nat) (status : String) (pid : Int) : gopsutilNet.ConnectionStat :=
  { Laddr := { IP := "0.0.0.0", Port := port }, Status := status, Pid := pid }

/-- A process for the examples whose name and command line can be read. -/
def exampleProc (pid : Int) (name : String) : gopsutilProcess.Process :=
  { Pid := pid, Name := (name, none), CmdlineSlice := ([name], none) }

/-- Whether an event deposits a snapshot (and is neither an error nor the end of the context). -/
def Event.isDeposit : Event → Bool
  | Event.mysqlProcs _ => true
  | Event.proxyRecords _ => true
  | _ => false

/-- The two snapshot variables after one more event has been received. -/
def heldStep (st : Option (List MysqlProcess) × Option (List TCPProxyRecord)) :
    Event → Option (List MysqlProcess) × Option (List TCPProxyRecord)
  | Event.mysqlProcs mps => (mps, st.2)
  | Event.proxyRecords tprs => (st.1, tprs)
  | _ => st

/-- The snapshots held after a sequence of events, starting from `st`: for each of the two
kinds, the slice deposited last. -/
def heldFrom (st : Option (List MysqlProcess) × Option (List TCPProxyRecord))
    (events : List Event) : Option (List MysqlProcess) × Option (List TCPProxyRecord) :=
  events.foldl heldStep st

/-- Whether both held snapshots are non-nil slices. -/
def bothPresent (st : Option (List MysqlProcess) × Option (List TCPProxyRecord)) : Bool :=
  st.1.isSome && st.2.isSome

/-- A decimal digit character, `0` to `9`. -/
def IsDigit (c : Char) : Prop := 48 ≤ c.toNat ∧ c.toNat ≤ 57

instance (c : Char) : Decidable (IsDigit c) := by
  unfold IsDigit
  infer_instance

/-- The number obtained by appending the decimal digits `s` to the number `n`. -/
def decFold (n : Nat) (s : List Char) : Nat :=
  s.foldl (fun a c => 10 * a + (c.toNat - 48)) n

/-- The list of characters `s` is an unsigned decimal numeral of the number `n`: at least one
character, decimal digits only, and `n` is its value (leading zeros are allowed). -/
def DecimalOf (s : List Char) (n : Nat) : Prop :=
  s ≠ [] ∧ (∀ c ∈ s, IsDigit c) ∧ decFold 0 s = n

instance (s : List Char) (n : Nat) : Decidable (DecimalOf s n) := by
  unfold DecimalOf
  infer_instance

/-- The list of characters `s` is a decimal numeral of the integer `z` with an optional sign:
an unsigned decimal numeral, possibly after one `+` or one `-`. -/
def SignedDecimalOf (s : List Char) (z : Int) : Prop :=
  ∃ ds n, DecimalOf ds n ∧
    ((s = ds ∧ z = (n : Int)) ∨ (s = '+' :: ds ∧ z = (n : Int)) ∨ (s = '-' :: ds ∧ z = -(n : Int)))

/-- A joined record for the examples whose session has the elapsed-time string `time`. -/
def exampleJoined (time : String) : KimoProcess :=
  { DaemonProcess :=
      { Laddr := { Host := "10.0.0.9", Port := 22001 }, Status := "ESTABLISHED", Pid := 77,
        Name := "app", CmdLine := ["app", "--serve"], Hostname := "web-1" },
    MysqlProcess :=
      { ID := 9, User := "app", DB := { String := "shop", Valid := true }, Command := "Query",
        Time := time, State := { String := "", Valid := false },
        Info := { String := "", Valid := false }, Address := { IP := "10.0.0.5", Port := 5000 } },
    TCPProxyRecord :=
      { Origin := { IP := "10.0.0.9", Port := 22001 },
        ProxyOut := { IP := "10.0.0.5", Port := 5000 } } }

theorem scan_eq_none_iff (ipAddr : String) (port : Nat) (tprs : List TCPProxyRecord) :
    findTCPProxyRecord.scan ipAddr port tprs = none ↔
      ∀ r ∈ tprs, ¬ (r.ProxyOut.IP = ipAddr ∧ r.ProxyOut.Port = port) := by
  induction tprs with
  | nil => simp [findTCPProxyRecord.scan]
  | cons pr rest ih =>
    by_cases h : pr.ProxyOut.IP = ipAddr ∧ pr.ProxyOut.Port = port
    · simp [findTCPProxyRecord.scan, h]
    · simp only [findTCPProxyRecord.scan, h, if_false, ih, List.mem_cons, forall_eq_or_imp,
        not_false_eq_true, true_and]

theorem scan_eq_some_first (ipAddr : String) (port : Nat) (tprs : List TCPProxyRecord)
    (r : TCPProxyRecord) (h : findTCPProxyRecord.scan ipAddr port tprs = some r) :
    ∃ pre post, tprs = pre ++ r :: post ∧ r.ProxyOut.IP = ipAddr ∧ r.ProxyOut.Port = port ∧
      ∀ x ∈ pre, ¬ (x.ProxyOut.IP = ipAddr ∧ x.ProxyOut.Port = port) := by
  induction tprs with
  | nil => simp [findTCPProxyRecord.scan] at h
  | cons pr rest ih =>
    by_cases hm : pr.ProxyOut.IP = ipAddr ∧ pr.ProxyOut.Port = port
    · simp only [findTCPProxyRecord.scan, hm, and_self, if_true, Option.some.injEq] at h
      subst h
      exact ⟨[], rest, rfl, hm.1, hm.2, by simp⟩
    · simp only [findTCPProxyRecord.scan, hm, if_false] at h
      obtain ⟨pre, post, e, h1, h2, h3⟩ := ih h
      refine ⟨pr :: pre, post, by simp [e], h1, h2, ?_⟩
      intro x hx
      rcases List.mem_cons.1 hx with rfl | hx
      · exact hm
      · exact h3 x hx

theorem findTCPProxyRecord_returning (canon : String → String × Option String) (addr : IPPort)
    (tprs : List TCPProxyRecord) :
    findTCPProxyRecord (returning canon) addr tprs =
      Run.done (match canon addr.IP with
        | (_, some _) => none
        | (ipAddr, none) => findTCPProxyRecord.scan ipAddr addr.Port tprs) := by
  unfold findTCPProxyRecord returning
  rcases canon addr.IP with ⟨ip, _ | e⟩ <;> rfl

theorem InitializeKimoProcesses_returning (canon : String → String × Option String)
    (kps : List KimoProcess) (mps : List MysqlProcess) (tprs : List TCPProxyRecord) :
    InitializeKimoProcesses (returning canon) kps mps tprs =
      Run.done (kps ++ mps.filterMap (joinOne canon tprs), none) := by
  induction mps generalizing kps with
  | nil => simp [InitializeKimoProcesses]
  | cons mp rest ih =>
    unfold InitializeKimoProcesses
    rw [findTCPProxyRecord_returning]
    rcases hc : canon mp.Address.IP with ⟨ip, _ | e⟩
    · rcases hs : findTCPProxyRecord.scan ip mp.Address.Port tprs with _ | r
      · simp [ih, List.filterMap_cons, joinOne, hc, hs]
      · simp [ih, List.filterMap_cons, joinOne, hc, hs]
    · simp [ih, List.filterMap_cons, joinOne, hc]

theorem joinOne_session (canon : String → String × Option String) (tprs : List TCPProxyRecord)
    (mp : MysqlProcess) (kp : KimoProcess) (h : joinOne canon tprs mp = some kp) :
    kp.MysqlProcess = mp := by
  unfold joinOne at h
  rcases hc : canon mp.Address.IP with ⟨ip, _ | e⟩
  · rw [hc] at h
    rcases hs : findTCPProxyRecord.scan ip mp.Address.Port tprs with _ | r
    · simp [hs] at h
    · simp [hs] at h
      subst h
      rfl
  · rw [hc] at h
    simp at h

theorem joinOne_eq_some (canon : String → String × Option String) (tprs : List TCPProxyRecord)
    (mp : MysqlProcess) (kp : KimoProcess) (h : joinOne canon tprs mp = some kp) :
    ∃ ip r, canon mp.Address.IP = (ip, none) ∧
      findTCPProxyRecord.scan ip mp.Address.Port tprs = some r ∧ kp = newKimoProcess mp r := by
  unfold joinOne at h
  rcases hc : canon mp.Address.IP with ⟨ip, _ | e⟩
  · rw [hc] at h
    rcases hs : findTCPProxyRecord.scan ip mp.Address.Port tprs with _ | r
    · simp [hs] at h
    · simp [hs] at h
      exact ⟨ip, r, rfl, hs, h.symm⟩
  · rw [hc] at h
    simp at h

theorem countP_filterMap_joinOne (canon : String → String × Option String)
    (tprs : List TCPProxyRecord) (s : MysqlProcess) (mps : List MysqlProcess)
    (hs : (joinOne canon tprs s).isSome = true) :
    (mps.filterMap (joinOne canon tprs)).countP (fun kp => decide (kp.MysqlProcess = s)) =
      mps.count s := by
  induction mps with
  | nil => simp
  | cons mp rest ih =>
    rcases hj : joinOne canon tprs mp with _ | kp
    · have hne : mp ≠ s := by
        intro e
        subst e
        simp [hj] at hs
      simp [List.filterMap_cons, hj, ih, List.count_cons, hne]
    · have hk := joinOne_session canon tprs mp kp hj
      by_cases e : mp = s
      · subst e
        simp [List.filterMap_cons, hj, ih, List.count_cons, List.countP_cons, hk]
      · simp [List.filterMap_cons, hj, ih, List.count_cons, List.countP_cons, hk, e]

/-! ## The correlation join: properties -/

/-- C1, as stated, fails: the session at `10.0.0.5:5000` and the routing record whose
proxy-facing address is `proxy-1:5000` have equal canonical IPs and equal ports, yet the join
produces no record, because the IP of the routing record is compared as stored. -/
theorem C1_counterexample :
    (exampleCanon (exampleSession 1 "10.0.0.5" 5000).Address.IP).1 =
        (exampleCanon "proxy-1").1 ∧
      (exampleCanon (exampleSession 1 "10.0.0.5" 5000).Address.IP).2 = none ∧
      (exampleCanon "proxy-1").2 = none ∧
      InitializeKimoProcesses (returning exampleCanon) []
          [exampleSession 1 "10.0.0.5" 5000]
          [{ Origin := { IP := "10.0.0.9", Port := 22001 },
             ProxyOut := { IP := "proxy-1", Port := 5000 } }] =
        Run.done ([], none) := by
  decide

/-- C1, amended: for every returning canonicalization function, every list of distinct sessions
and every list of routing records, if the canonical IP of the session `s` equals the
proxy-facing IP of the routing record `r` as stored and the ports are equal, the join started
from the empty list returns without error, contains exactly one record whose session is `s`, and
the routing record of every such record has the canonical IP and the port of `s` as its
proxy-facing address. -/
theorem C1_join_pairs_exactly_once (canon : String → String × Option String)
    (mps : List MysqlProcess) (tprs : List TCPProxyRecord) (s : MysqlProcess)
    (r : TCPProxyRecord) (ip : String) (hnd : mps.Nodup) (hs : s ∈ mps) (hr : r ∈ tprs)
    (hc : canon s.Address.IP = (ip, none)) (hip : r.ProxyOut.IP = ip)
    (hport : r.ProxyOut.Port = s.Address.Port) :
    ∃ added, InitializeKimoProcesses (returning canon) [] mps tprs = Run.done (added, none) ∧
      added.countP (fun kp => decide (kp.MysqlProcess = s)) = 1 ∧
      ∀ kp ∈ added, kp.MysqlProcess = s →
        kp.TCPProxyRecord.ProxyOut = { IP := ip, Port := s.Address.Port } := by
  refine ⟨mps.filterMap (joinOne canon tprs), ?_, ?_, ?_⟩
  · simp [InitializeKimoProcesses_returning]
  · have hsome : (joinOne canon tprs s).isSome = true := by
      unfold joinOne
      rw [hc]
      rcases hsc : findTCPProxyRecord.scan ip s.Address.Port tprs with _ | r0
      · exact absurd ⟨hip, hport⟩ ((scan_eq_none_iff ip s.Address.Port tprs).1 hsc r hr)
      · simp [hsc]
    rw [countP_filterMap_joinOne canon tprs s mps hsome]
    exact List.count_eq_one_of_mem hnd hs
  · intro kp hkp hks
    obtain ⟨mp, -, hj⟩ := List.mem_filterMap.1 hkp
    obtain ⟨ip0, r0, hc0, hs0, rfl⟩ := joinOne_eq_some canon tprs mp kp hj
    have hmp : mp = s := hks
    subst hmp
    rw [hc] at hc0
    obtain ⟨-, -, -, h1, h2, -⟩ := scan_eq_some_first ip0 mp.Address.Port tprs r0 hs0
    have hip0 : ip = ip0 := by injection hc0
    subst hip0
    show r0.ProxyOut = _
    rcases r0 with ⟨o, ⟨a, b⟩⟩
    simp_all

/-- C1, amended, at a concrete input: one session at `10.0.0.5:5000` and the routing record of
the end-to-end scenario of the specification. -/
theorem C1_join_pairs_exactly_once_witness :
    ∃ added, InitializeKimoProcesses (returning exampleCanon) []
        [exampleSession 1 "10.0.0.5" 5000]
        [{ Origin := { IP := "10.0.0.9", Port := 22001 },
           ProxyOut := { IP := "10.0.0.5", Port := 5000 } }] = Run.done (added, none) ∧
      added.countP (fun kp => decide (kp.MysqlProcess = exampleSession 1 "10.0.0.5" 5000)) = 1 ∧
      ∀ kp ∈ added, kp.MysqlProcess = exampleSession 1 "10.0.0.5" 5000 →
        kp.TCPProxyRecord.ProxyOut =
          { IP := "10.0.0.5", Port := (exampleSession 1 "10.0.0.5" 5000).Address.Port } :=
  C1_join_pairs_exactly_once exampleCanon [exampleSession 1 "10.0.0.5" 5000]
    [{ Origin := { IP := "10.0.0.9", Port := 22001 },
       ProxyOut := { IP := "10.0.0.5", Port := 5000 } }]
    (exampleSession 1 "10.0.0.5" 5000)
    { Origin := { IP := "10.0.0.9", Port := 22001 },
      ProxyOut := { IP := "10.0.0.5", Port := 5000 } }
    "10.0.0.5" (by decide) (by decide) (by decide) (by decide) (by decide) (by decide)

/-- C2: for every returning canonicalization function and every state on entry, the join returns
without error and only appends records; the sessions of the appended records form a sublist of
the input sessions (each session element gives at most one record, so at most as many records
as sessions are added), and every appended record pairs its session with the first routing
record in list order whose proxy-facing IP equals the canonical IP of the session and whose
proxy-facing port equals the port of the session. -/
theorem C2_first_match_wins (canon : String → String × Option String)
    (kps : List KimoProcess) (mps : List MysqlProcess) (tprs : List TCPProxyRecord) :
    ∃ added, InitializeKimoProcesses (returning canon) kps mps tprs =
        Run.done (kps ++ added, none) ∧
      (added.map KimoProcess.MysqlProcess).Sublist mps ∧
      added.length ≤ mps.length ∧
      ∀ kp ∈ added, ∃ ip pre post,
        canon kp.MysqlProcess.Address.IP = (ip, none) ∧
        tprs = pre ++ kp.TCPProxyRecord :: post ∧
        kp.TCPProxyRecord.ProxyOut.IP = ip ∧
        kp.TCPProxyRecord.ProxyOut.Port = kp.MysqlProcess.Address.Port ∧
        ∀ x ∈ pre, ¬ (x.ProxyOut.IP = ip ∧ x.ProxyOut.Port = kp.MysqlProcess.Address.Port) := by
  have hsub : ((mps.filterMap (joinOne canon tprs)).map KimoProcess.MysqlProcess).Sublist
      mps := by
    induction mps with
    | nil => simp
    | cons mp rest ih =>
      rcases hj : joinOne canon tprs mp with _ | kp
      · simp only [List.filterMap_cons, hj]
        exact ih.cons mp
      · simp only [List.filterMap_cons, hj, List.map_cons,
          joinOne_session canon tprs mp kp hj]
        exact ih.cons₂ mp
  refine ⟨mps.filterMap (joinOne canon tprs), InitializeKimoProcesses_returning _ _ _ _,
    hsub, ?_, ?_⟩
  · simpa using hsub.length_le
  · intro kp hkp
    obtain ⟨mp, -, hj⟩ := List.mem_filterMap.1 hkp
    obtain ⟨ip, r, hc, hs, rfl⟩ := joinOne_eq_some canon tprs mp kp hj
    obtain ⟨pre, post, e, h1, h2, h3⟩ := scan_eq_some_first ip mp.Address.Port tprs r hs
    exact ⟨ip, pre, post, hc, e, h1, h2, h3⟩

/-- C3: for every returning canonicalization function, if no routing record has a proxy-facing
IP equal to the canonical IP of the session `s` together with an equal port (which includes the
case that canonicalization fails for `s`), the join returns with a nil error, none of the
records it appends is for `s`, and the appended records are the same as when `s` is not in the
input. -/
theorem C3_unmatched_dropped (canon : String → String × Option String)
    (kps : List KimoProcess) (pre post : List MysqlProcess) (s : MysqlProcess)
    (tprs : List TCPProxyRecord)
    (h : ∀ r ∈ tprs, ¬ ((canon s.Address.IP).2 = none ∧
      r.ProxyOut.IP = (canon s.Address.IP).1 ∧ r.ProxyOut.Port = s.Address.Port)) :
    ∃ added, InitializeKimoProcesses (returning canon) kps (pre ++ s :: post) tprs =
        Run.done (kps ++ added, none) ∧
      (∀ kp ∈ added, kp.MysqlProcess ≠ s) ∧
      InitializeKimoProcesses (returning canon) kps (pre ++ post) tprs =
        Run.done (kps ++ added, none) := by
  have hnone : joinOne canon tprs s = none := by
    unfold joinOne
    rcases hc : canon s.Address.IP with ⟨ip, _ | e⟩
    · have hsc : findTCPProxyRecord.scan ip s.Address.Port tprs = none := by
        rw [scan_eq_none_iff]
        intro r hr hm
        exact h r hr (by simp [hc, hm.1, hm.2])
      simp [hsc]
    · rfl
  refine ⟨(pre ++ post).filterMap (joinOne canon tprs), ?_, ?_, ?_⟩
  · rw [InitializeKimoProcesses_returning]
    simp [List.filterMap_append, List.filterMap_cons, hnone]
  · intro kp hkp hks
    obtain ⟨mp, -, hj⟩ := List.mem_filterMap.1 hkp
    have hmp := joinOne_session canon tprs mp kp hj
    rw [hks] at hmp
    subst hmp
    rw [hnone] at hj
    exact Option.noConfusion hj
  · exact InitializeKimoProcesses_returning _ _ _ _

/-- C3 at a concrete input: the session at `10.0.0.7:6000` matches no routing record and sits
between two sessions that do. -/
theorem C3_unmatched_dropped_witness :
    ∃ added, InitializeKimoProcesses (returning exampleCanon) []
        ([exampleSession 1 "10.0.0.5" 5000] ++ exampleSession 2 "10.0.0.7" 6000 ::
          [exampleSession 3 "proxy-1" 5001])
        [exampleRecord "10.0.0.5" 5000, exampleRecord "10.0.0.5" 5001] =
          Run.done ([] ++ added, none) ∧
      (∀ kp ∈ added, kp.MysqlProcess ≠ exampleSession 2 "10.0.0.7" 6000) ∧
      InitializeKimoProcesses (returning exampleCanon) []
        ([exampleSession 1 "10.0.0.5" 5000] ++ [exampleSession 3 "proxy-1" 5001])
        [exampleRecord "10.0.0.5" 5000, exampleRecord "10.0.0.5" 5001] =
          Run.done ([] ++ added, none) :=
  C3_unmatched_dropped exampleCanon [] [exampleSession 1 "10.0.0.5" 5000]
    [exampleSession 3 "proxy-1" 5001] (exampleSession 2 "10.0.0.7" 6000)
    [exampleRecord "10.0.0.5" 5000, exampleRecord "10.0.0.5" 5001] (by decide)

/-- The unguarded index of `findHostIP`: for a lookup that answers with no address and no
error, which the resolver of Go does not do, `findHostIP` panics and the panic unwinds the
join. -/
theorem empty_lookup_without_error :
    findHostIP (fun _ => none) (fun _ => ([], none)) "db.internal" =
        Run.panic "runtime error: index out of range [0] with length 0" ∧
      InitializeKimoProcesses
          (findHostIP (fun h => if h = "10.0.0.5" then some h else none) (fun _ => ([], none)))
          [] [exampleSession 1 "db.internal" 5000, exampleSession 2 "10.0.0.5" 5000]
          [exampleRecord "10.0.0.5" 5000] =
        Run.panic "runtime error: index out of range [0] with length 0" := by
  decide

theorem findProcess_eq_some (pid : Int) (processes : List gopsutilProcess.Process)
    (p : gopsutilProcess.Process) (h : Daemon.findProcess pid processes = some p) :
    p ∈ processes ∧ p.Pid = pid := by
  induction processes with
  | nil => simp [Daemon.findProcess] at h
  | cons q rest ih =>
    by_cases hq : q.Pid = pid
    · simp only [Daemon.findProcess, hq, if_true, Option.some.injEq] at h
      subst h
      exact ⟨List.mem_cons_self _ _, hq⟩
    · simp only [Daemon.findProcess, hq, if_false] at h
      exact ⟨List.mem_cons_of_mem _ (ih h).1, (ih h).2⟩

theorem findProcess_isSome_of_mem (pid : Int) (processes : List gopsutilProcess.Process)
    (p : gopsutilProcess.Process) (hp : p ∈ processes) (hpid : p.Pid = pid) :
    ∃ q, Daemon.findProcess pid processes = some q := by
  induction processes with
  | nil => simp at hp
  | cons q rest ih =>
    by_cases hq : q.Pid = pid
    · exact ⟨q, by simp [Daemon.findProcess, hq]⟩
    · rcases List.mem_cons.1 hp with rfl | hp
      · exact absurd hpid hq
      · obtain ⟨q0, h0⟩ := ih hp
        exact ⟨q0, by simp [Daemon.findProcess, hq, h0]⟩

theorem scan_skip (port : Nat) (processes : List gopsutilProcess.Process)
    (Hostname : String × Option String) (pre rest : List gopsutilNet.ConnectionStat)
    (h : ∀ x ∈ pre, x.Laddr.Port ≠ port ∨ Daemon.findProcess x.Pid processes = none) :
    Daemon.conns.scan port none processes Hostname (pre ++ rest) =
      Daemon.conns.scan port none processes Hostname rest := by
  induction pre with
  | nil => rfl
  | cons x pre ih =>
    have hx := h x (List.mem_cons_self _ _)
    have ih := ih (fun y hy => h y (List.mem_cons_of_mem _ hy))
    by_cases hp : x.Laddr.Port = port
    · have hf : Daemon.findProcess x.Pid processes = none := by
        rcases hx with hx | hx
        · exact absurd hp hx
        · exact hx
      simp [Daemon.conns.scan, hp, hf, ih]
    · simp [Daemon.conns.scan, hp, ih]

theorem scan_first (port : Nat) (processes : List gopsutilProcess.Process)
    (Hostname : String × Option String) (pre post : List gopsutilNet.ConnectionStat)
    (c : gopsutilNet.ConnectionStat) (p : gopsutilProcess.Process)
    (h : ∀ x ∈ pre, x.Laddr.Port ≠ port ∨ Daemon.findProcess x.Pid processes = none)
    (hc : c.Laddr.Port = port) (hp : Daemon.findProcess c.Pid processes = some p) :
    Daemon.conns.scan port none processes Hostname (pre ++ c :: post) =
      Daemon.conns.build c p Hostname := by
  rw [scan_skip port processes Hostname pre (c :: post) h]
  simp [Daemon.conns.scan, hc, hp]

theorem conns_of_port (isEmpty : DaemonProcess → Bool) (query : String → Option (List String))
    (port : Nat) (connections : List gopsutilNet.ConnectionStat)
    (processes : List gopsutilProcess.Process) (Hostname : String × Option String)
    (hq : Daemon.parsePortParam query = (port, none)) :
    Daemon.conns isEmpty query (connections, none) (processes, none) Hostname =
      Daemon.conns.respond isEmpty
        (Daemon.conns.scan port none processes Hostname connections) := by
  simp [Daemon.conns, hq, Daemon.conns.respond]

theorem exists_first_resolvable (port : Nat) (processes : List gopsutilProcess.Process)
    (connections : List gopsutilNet.ConnectionStat)
    (h : ∃ c ∈ connections, c.Laddr.Port = port ∧ ∃ p ∈ processes, p.Pid = c.Pid) :
    ∃ pre c post p, connections = pre ++ c :: post ∧
      (∀ x ∈ pre, x.Laddr.Port ≠ port ∨ Daemon.findProcess x.Pid processes = none) ∧
      c.Laddr.Port = port ∧ Daemon.findProcess c.Pid processes = some p := by
  induction connections with
  | nil => simp at h
  | cons x rest ih =>
    by_cases hx : x.Laddr.Port = port ∧ (Daemon.findProcess x.Pid processes).isSome = true
    · obtain ⟨p, hp⟩ := Option.isSome_iff_exists.1 hx.2
      exact ⟨[], x, rest, p, rfl, by simp, hx.1, hp⟩
    · have hrest : ∃ c ∈ rest, c.Laddr.Port = port ∧ ∃ p ∈ processes, p.Pid = c.Pid := by
        obtain ⟨c, hc, hcp, p, hp, hpid⟩ := h
        rcases List.mem_cons.1 hc with rfl | hc
        · exfalso
          obtain ⟨q, hq⟩ := findProcess_isSome_of_mem c.Pid processes p hp hpid
          exact hx ⟨hcp, by simp [hq]⟩
        · exact ⟨c, hc, hcp, p, hp, hpid⟩
      obtain ⟨pre, c, post, p, e, h1, h2, h3⟩ := ih hrest
      refine ⟨x :: pre, c, post, p, by simp [e], ?_, h2, h3⟩
      intro y hy
      rcases List.mem_cons.1 hy with rfl | hy
      · by_cases hyp : y.Laddr.Port = port
        · right
          rcases hf : Daemon.findProcess y.Pid processes with _ | q
          · rfl
          · exact absurd ⟨hyp, by simp [hf]⟩ hx
        · exact Or.inl hyp
      · exact h1 y hy

/-! ## The agent: properties -/

/-- C4, as stated, fails: the requested port is 0, the only connection has local port 0 and is
owned by pid 0, which is in the process table; the name and the command line of that process
cannot be read and the host name of the machine is empty, so every field of the record built
for the connection holds its zero value: the record is the empty sentinel and the handler
answers 404. -/
theorem C4_counterexample :
    Daemon.parsePortParam (portQuery "0") = (0, none) ∧
      (∃ c ∈ [({ Laddr := { IP := "", Port := 0 }, Status := "", Pid := 0 } :
          gopsutilNet.ConnectionStat)],
        c.Laddr.Port = 0 ∧
          ∃ p ∈ [({ Pid := 0, Name := ("", some "access denied"),
                    CmdlineSlice := ([], some "access denied") } : gopsutilProcess.Process)],
            p.Pid = c.Pid) ∧
      Daemon.conns DaemonProcess.IsEmpty (portQuery "0")
          ([{ Laddr := { IP := "", Port := 0 }, Status := "", Pid := 0 }], none)
          ([{ Pid := 0, Name := ("", some "access denied"),
               CmdlineSlice := ([], some "access denied") }], none) ("", none) =
        Response.error "process not found!" 404 := by
  decide

/-- The failure of C4 does not depend on how `IsEmpty` is written: whenever the zero-valued
record counts as empty, which the 404 answer for an unmatched port needs, the request for port 0
below is answered 404 although its connection and the owning process are in the tables. -/
theorem zero_record_not_found (isEmpty : DaemonProcess → Bool)
    (hz : isEmpty DaemonProcess.zero = true) :
    Daemon.conns isEmpty (portQuery "0")
        ([{ Laddr := { IP := "", Port := 0 }, Status := "", Pid := 0 }], none)
        ([{ Pid := 0, Name := ("", some "access denied"),
             CmdlineSlice := ([], some "access denied") }], none) ("", none) =
      Response.error "process not found!" 404 := by
  have hq : Daemon.parsePortParam (portQuery "0") = (0, none) := by decide
  rw [conns_of_port isEmpty (portQuery "0") 0 _ _ _ hq]
  have hb : Daemon.conns.scan 0 none
      [{ Pid := 0, Name := ("", some "access denied"),
         CmdlineSlice := ([], some "access denied") }] ("", none)
      [{ Laddr := { IP := "", Port := 0 }, Status := "", Pid := 0 }] = DaemonProcess.zero := by
    decide
  rw [hb]
  simp [Daemon.conns.respond, hz]

/-- With the sentinel reading of `IsEmpty`, a record built for a connection whose local port is
not 0 is never empty, so for every requested port other than 0 a found process is answered with
status 200. -/
theorem build_not_empty (conn : gopsutilNet.ConnectionStat) (process : gopsutilProcess.Process)
    (Hostname : String × Option String) (h : conn.Laddr.Port ≠ 0) :
    (Daemon.conns.build conn process Hostname).IsEmpty = false := by
  have hne : Daemon.conns.build conn process Hostname ≠ DaemonProcess.zero := by
    intro e
    have hp : (Daemon.conns.build conn process Hostname).Laddr.Port =
        DaemonProcess.zero.Laddr.Port := by rw [e]
    exact h hp
  simp [DaemonProcess.IsEmpty, hne]

/-- C4, amended: for tables fetched without error and a request whose port parameter parses to
`port`, whatever the method `IsEmpty` is: if some connection with local port `port` has an
owning pid that is in the process table, then there are such a connection `c` and a process `p`
with that pid for which the handler answers with the record built from them (pid, local address
and status of `c`, name of `p`, empty when it cannot be read), with status 200 unless `IsEmpty`
holds of that record, in which case it answers 404; if no connection has local port `port` and
the zero-valued record is empty, the handler answers 404 (and not 500). -/
theorem C4_agent_resolves_port (isEmpty : DaemonProcess → Bool)
    (query : String → Option (List String)) (port : Nat)
    (connections : List gopsutilNet.ConnectionStat) (processes : List gopsutilProcess.Process)
    (Hostname : String × Option String) (hq : Daemon.parsePortParam query = (port, none))
    (hz : isEmpty DaemonProcess.zero = true) :
    ((∃ c ∈ connections, c.Laddr.Port = port ∧ ∃ p ∈ processes, p.Pid = c.Pid) →
      ∃ c ∈ connections, ∃ p ∈ processes, c.Laddr.Port = port ∧ p.Pid = c.Pid ∧
        Daemon.conns isEmpty query (connections, none) (processes, none) Hostname =
          (if isEmpty (Daemon.conns.build c p Hostname) = true
            then Response.error "process not found!" 404
            else Response.json (Daemon.conns.build c p Hostname)) ∧
        (Daemon.conns.build c p Hostname).Pid = c.Pid ∧
        (Daemon.conns.build c p Hostname).Name = (if p.Name.2 ≠ none then "" else p.Name.1) ∧
        (Daemon.conns.build c p Hostname).Laddr = { Host := c.Laddr.IP, Port := port } ∧
        (Daemon.conns.build c p Hostname).Status = c.Status) ∧
    ((∀ c ∈ connections, c.Laddr.Port ≠ port) →
      Daemon.conns isEmpty query (connections, none) (processes, none) Hostname =
        Response.error "process not found!" 404) := by
  constructor
  · intro h
    obtain ⟨pre, c, post, p, e, h1, h2, h3⟩ := exists_first_resolvable port processes connections h
    have hp := findProcess_eq_some c.Pid processes p h3
    refine ⟨c, by simp [e], p, hp.1, h2, hp.2, ?_, rfl, rfl, ?_, rfl⟩
    · rw [conns_of_port isEmpty query port connections processes Hostname hq, e,
        scan_first port processes Hostname pre post c p h1 h2 h3]
      rfl
    · simp [Daemon.conns.build, h2]
  · intro h
    rw [conns_of_port isEmpty query port connections processes Hostname hq]
    have hs := scan_skip port processes Hostname connections [] (fun x hx => Or.inl (h x hx))
    rw [List.append_nil] at hs
    rw [hs]
    simp [Daemon.conns.respond, Daemon.conns.scan, hz]

/-- C4, amended, at the input of the specification: the connection table has the entry with
port 3306 and pid 42, the process table has pid 42 named `mysqld`. -/
theorem C4_agent_resolves_port_witness :
    Daemon.parsePortParam (portQuery "3306") = (3306, none) ∧
    DaemonProcess.IsEmpty DaemonProcess.zero = true ∧
    (((∃ c ∈ [exampleConn 3306 "LISTEN" 42], c.Laddr.Port = 3306 ∧
        ∃ p ∈ [exampleProc 42 "mysqld"], p.Pid = c.Pid) →
      ∃ c ∈ [exampleConn 3306 "LISTEN" 42], ∃ p ∈ [exampleProc 42 "mysqld"],
        c.Laddr.Port = 3306 ∧ p.Pid = c.Pid ∧
        Daemon.conns DaemonProcess.IsEmpty (portQuery "3306") ([exampleConn 3306 "LISTEN" 42], none)
            ([exampleProc 42 "mysqld"], none) ("db-1", none) =
          (if (Daemon.conns.build c p ("db-1", none)).IsEmpty = true
            then Response.error "process not found!" 404
            else Response.json (Daemon.conns.build c p ("db-1", none))) ∧
        (Daemon.conns.build c p ("db-1", none)).Pid = c.Pid ∧
        (Daemon.conns.build c p ("db-1", none)).Name =
          (if p.Name.2 ≠ none then "" else p.Name.1) ∧
        (Daemon.conns.build c p ("db-1", none)).Laddr = { Host := c.Laddr.IP, Port := 3306 } ∧
        (Daemon.conns.build c p ("db-1", none)).Status = c.Status) ∧
    ((∀ c ∈ [exampleConn 3306 "LISTEN" 42], c.Laddr.Port ≠ 3306) →
      Daemon.conns DaemonProcess.IsEmpty (portQuery "3306") ([exampleConn 3306 "LISTEN" 42], none)
          ([exampleProc 42 "mysqld"], none) ("db-1", none) =
        Response.error "process not found!" 404)) ∧
    Daemon.conns DaemonProcess.IsEmpty (portQuery "3306") ([exampleConn 3306 "LISTEN" 42], none)
        ([exampleProc 42 "mysqld"], none) ("db-1", none) =
      Response.json
        { Laddr := { Host := "0.0.0.0", Port := 3306 }, Status := "LISTEN", Pid := 42,
          Name := "mysqld", CmdLine := ["mysqld"], Hostname := "db-1" } ∧
    Daemon.conns DaemonProcess.IsEmpty (portQuery "9999") ([exampleConn 3306 "LISTEN" 42], none)
        ([exampleProc 42 "mysqld"], none) ("db-1", none) =
      Response.error "process not found!" 404 :=
  ⟨by decide, by decide,
    C4_agent_resolves_port DaemonProcess.IsEmpty (portQuery "3306") 3306
      [exampleConn 3306 "LISTEN" 42] [exampleProc 42 "mysqld"] ("db-1", none) (by decide)
      (by decide),
    by decide, by decide⟩

/-- C5, as stated, fails: two connections have local port 3306; the first one in table order is
owned by pid 41, which is not in the process table, the second one by pid 42, which is. The
handler does not answer 404: it skips the first connection and answers 200 with the second. -/
theorem C5_counterexample :
    Daemon.parsePortParam (portQuery "3306") = (3306, none) ∧
      Daemon.findProcess (exampleConn 3306 "ESTABLISHED" 41).Pid [exampleProc 42 "mysqld"] =
        none ∧
      Daemon.conns DaemonProcess.IsEmpty (portQuery "3306")
          ([exampleConn 3306 "ESTABLISHED" 41, exampleConn 3306 "LISTEN" 42], none)
          ([exampleProc 42 "mysqld"], none) ("db-1", none) =
        Response.json
          { Laddr := { Host := "0.0.0.0", Port := 3306 }, Status := "LISTEN", Pid := 42,
            Name := "mysqld", CmdLine := ["mysqld"], Hostname := "db-1" } := by
  decide

/-- C5, amended: whatever the method `IsEmpty` is, the result is decided by the first
connection, in table order, whose local port equals the requested port and whose owning pid is
found in the process table; connections with that port whose pid is not found are skipped. If
`c` is that connection and `p` the process found for its pid, the handler answers with the
record built from `c` and `p` (status 200 unless `IsEmpty` holds of that record); if every
connection with the requested port has a pid that is not found and the zero-valued record is
empty, the handler answers 404, not an error. -/
theorem C5_first_resolvable_connection (isEmpty : DaemonProcess → Bool)
    (query : String → Option (List String)) (port : Nat)
    (connections : List gopsutilNet.ConnectionStat) (processes : List gopsutilProcess.Process)
    (Hostname : String × Option String) (hq : Daemon.parsePortParam query = (port, none))
    (hz : isEmpty DaemonProcess.zero = true) :
    (∀ pre c post p, connections = pre ++ c :: post →
      (∀ x ∈ pre, x.Laddr.Port ≠ port ∨ Daemon.findProcess x.Pid processes = none) →
      c.Laddr.Port = port → Daemon.findProcess c.Pid processes = some p →
      Daemon.conns isEmpty query (connections, none) (processes, none) Hostname =
        (if isEmpty (Daemon.conns.build c p Hostname) = true
          then Response.error "process not found!" 404
          else Response.json (Daemon.conns.build c p Hostname))) ∧
    ((∀ x ∈ connections, x.Laddr.Port ≠ port ∨ Daemon.findProcess x.Pid processes = none) →
      Daemon.conns isEmpty query (connections, none) (processes, none) Hostname =
        Response.error "process not found!" 404) := by
  constructor
  · intro pre c post p e h1 h2 h3
    rw [conns_of_port isEmpty query port connections processes Hostname hq, e,
      scan_first port processes Hostname pre post c p h1 h2 h3]
    rfl
  · intro h
    rw [conns_of_port isEmpty query port connections processes Hostname hq]
    have hs := scan_skip port processes Hostname connections [] h
    rw [List.append_nil] at hs
    rw [hs]
    simp [Daemon.conns.respond, Daemon.conns.scan, hz]

/-- C5, amended, at a concrete input: the first connection with port 3306 belongs to a process
that has exited, the second to `mysqld`. -/
theorem C5_first_resolvable_connection_witness :
    Daemon.parsePortParam (portQuery "3306") = (3306, none) ∧
    DaemonProcess.IsEmpty DaemonProcess.zero = true ∧
    Daemon.conns DaemonProcess.IsEmpty (portQuery "3306")
        ([exampleConn 22 "LISTEN" 7, exampleConn 3306 "ESTABLISHED" 41] ++
          exampleConn 3306 "LISTEN" 42 :: [exampleConn 3306 "ESTABLISHED" 43], none)
        ([exampleProc 7 "sshd", exampleProc 42 "mysqld", exampleProc 43 "mysql"], none)
        ("db-1", none) =
      (if (Daemon.conns.build (exampleConn 3306 "LISTEN" 42) (exampleProc 42 "mysqld")
          ("db-1", none)).IsEmpty = true
        then Response.error "process not found!" 404
        else Response.json (Daemon.conns.build (exampleConn 3306 "LISTEN" 42)
          (exampleProc 42 "mysqld") ("db-1", none))) :=
  ⟨by decide, by decide,
    (C5_first_resolvable_connection DaemonProcess.IsEmpty (portQuery "3306") 3306
      ([exampleConn 22 "LISTEN" 7, exampleConn 3306 "ESTABLISHED" 41] ++
        exampleConn 3306 "LISTEN" 42 :: [exampleConn 3306 "ESTABLISHED" 43])
      [exampleProc 7 "sshd", exampleProc 42 "mysqld", exampleProc 43 "mysql"] ("db-1", none)
      (by decide) (by decide)).1 [exampleConn 22 "LISTEN" 7, exampleConn 3306 "ESTABLISHED" 41]
      (exampleConn 3306 "LISTEN" 42) [exampleConn 3306 "ESTABLISHED" 43]
      (exampleProc 42 "mysqld") rfl (by decide) (by decide) (by decide)⟩

/-- C6, the failing input: a request to `/conns` without any parameter. `parsePortParam` returns
port 0 with a nil error, so the handler does not answer 400: it answers exactly as for the
request `port=0`, here with the 404 that a port matching no process gets as well. -/
theorem C6_missing_port_not_rejected :
    Daemon.parsePortParam emptyQuery = (0, none) ∧
      (∀ (isEmpty : DaemonProcess → Bool)
        (Connections : List gopsutilNet.ConnectionStat × Option String)
        (Processes : List gopsutilProcess.Process × Option String)
        (Hostname : String × Option String),
        Daemon.conns isEmpty emptyQuery Connections Processes Hostname =
          Daemon.conns isEmpty (portQuery "0") Connections Processes Hostname) ∧
      Daemon.conns DaemonProcess.IsEmpty emptyQuery ([exampleConn 3306 "LISTEN" 42], none)
          ([exampleProc 42 "mysqld"], none) ("db-1", none) =
        Response.error "process not found!" 404 ∧
      Daemon.conns DaemonProcess.IsEmpty (portQuery "9999") ([exampleConn 3306 "LISTEN" 42], none)
          ([exampleProc 42 "mysqld"], none) ("db-1", none) =
        Response.error "process not found!" 404 := by
  refine ⟨by decide, ?_, by decide, by decide⟩
  intro isEmpty Connections Processes Hostname
  have h1 : Daemon.parsePortParam emptyQuery = (0, none) := by decide
  have h2 : Daemon.parsePortParam (portQuery "0") = (0, none) := by decide
  simp only [Daemon.conns, h1, h2]

/-! ## The join barrier: lemmas -/

theorem loop_present (hostIP : String → Run (String × Option String)) (kps : List KimoProcess)
    (m : List MysqlProcess) (t : List TCPProxyRecord) (events : List Event) :
    Setup.loop hostIP kps (some m) (some t) events =
      SetupResult.returned false (InitializeKimoProcesses hostIP kps m t) := by
  cases events <;> simp [Setup.loop]

theorem loop_cons (hostIP : String → Run (String × Option String)) (kps : List KimoProcess)
    (st : Option (List MysqlProcess) × Option (List TCPProxyRecord)) (ev : Event)
    (rest : List Event) (h : bothPresent st = false) :
    Setup.loop hostIP kps st.1 st.2 (ev :: rest) =
      match ev with
      | Event.err e => SetupResult.returned true (Run.done (kps, some e))
      | Event.ctxDone e => SetupResult.returned false (Run.done (kps, some e))
      | _ => Setup.loop hostIP kps (heldStep st ev).1 (heldStep st ev).2 rest := by
  rcases st with ⟨_ | m, _ | t⟩ <;> cases ev <;> simp_all [Setup.loop, heldStep, bothPresent]

theorem loop_nil (hostIP : String → Run (String × Option String)) (kps : List KimoProcess)
    (st : Option (List MysqlProcess) × Option (List TCPProxyRecord))
    (h : bothPresent st = false) :
    Setup.loop hostIP kps st.1 st.2 [] = SetupResult.blocked := by
  rcases st with ⟨_ | m, _ | t⟩ <;> simp_all [Setup.loop, bothPresent]

theorem loop_success (hostIP : String → Run (String × Option String)) (kps : List KimoProcess)
    (pre post : List Event) (m : List MysqlProcess) (t : List TCPProxyRecord) :
    ∀ st : Option (List MysqlProcess) × Option (List TCPProxyRecord),
      (∀ ev ∈ pre, ev.isDeposit = true) →
      (∀ k, k < pre.length → bothPresent (heldFrom st (pre.take k)) = false) →
      heldFrom st pre = (some m, some t) →
      Setup.loop hostIP kps st.1 st.2 (pre ++ post) =
        SetupResult.returned false (InitializeKimoProcesses hostIP kps m t) := by
  induction pre with
  | nil =>
    intro st _ _ h
    simp only [heldFrom, List.foldl_nil] at h
    subst h
    exact loop_present hostIP kps m t _
  | cons ev pre ih =>
    intro st hd hk h
    have h0 : bothPresent st = false := by
      simpa [heldFrom] using hk 0 (by simp)
    rw [List.cons_append, loop_cons hostIP kps st ev _ h0]
    have hev := hd ev (List.mem_cons_self _ _)
    have hrec := ih (heldStep st ev) (fun e he => hd e (List.mem_cons_of_mem _ he))
      (fun k hk1 => by
        have := hk (k + 1) (by simpa using hk1)
        simpa [heldFrom] using this)
      (by simpa [heldFrom] using h)
    cases ev <;> simp_all [Event.isDeposit]

theorem loop_failure (hostIP : String → Run (String × Option String)) (kps : List KimoProcess)
    (pre post : List Event) (last : Event) :
    ∀ st : Option (List MysqlProcess) × Option (List TCPProxyRecord),
      (∀ ev ∈ pre, ev.isDeposit = true) →
      (∀ k, k ≤ pre.length → bothPresent (heldFrom st (pre.take k)) = false) →
      Setup.loop hostIP kps st.1 st.2 (pre ++ last :: post) =
        match last with
        | Event.err e => SetupResult.returned true (Run.done (kps, some e))
        | Event.ctxDone e => SetupResult.returned false (Run.done (kps, some e))
        | _ => Setup.loop hostIP kps (heldStep (heldFrom st pre) last).1
            (heldStep (heldFrom st pre) last).2 post := by
  induction pre with
  | nil =>
    intro st _ hk
    have h0 : bothPresent st = false := by
      simpa [heldFrom] using hk 0 (by simp)
    rw [List.nil_append, loop_cons hostIP kps st last _ h0]
    rfl
  | cons ev pre ih =>
    intro st hd hk
    have h0 : bothPresent st = false := by
      simpa [heldFrom] using hk 0 (by simp)
    rw [List.cons_append, loop_cons hostIP kps st ev _ h0]
    have hev := hd ev (List.mem_cons_self _ _)
    have hrec := ih (heldStep st ev) (fun e he => hd e (List.mem_cons_of_mem _ he))
      (fun k hk1 => by
        have := hk (k + 1) (by simpa using hk1)
        simpa [heldFrom] using this)
    cases ev <;> simp_all [Event.isDeposit, heldFrom]

theorem loop_returned_ok (hostIP : String → Run (String × Option String))
    (kps : List KimoProcess) (events : List Event) :
    ∀ (st : Option (List MysqlProcess) × Option (List TCPProxyRecord)) (c : Bool)
      (kps1 : List KimoProcess),
      Setup.loop hostIP kps st.1 st.2 events = SetupResult.returned c (Run.done (kps1, none)) →
      ∃ pre post m t, events = pre ++ post ∧ (∀ ev ∈ pre, ev.isDeposit = true) ∧
        heldFrom st pre = (some m, some t) ∧
        InitializeKimoProcesses hostIP kps m t = Run.done (kps1, none) := by
  induction events with
  | nil =>
    intro st c kps1 h
    by_cases hb : bothPresent st = true
    · rcases st with ⟨_ | m, _ | t⟩ <;> simp [bothPresent] at hb
      rw [loop_present] at h
      injection h with _ h2
      exact ⟨[], [], m, t, rfl, by simp, rfl, h2⟩
    · rw [loop_nil hostIP kps st (by simpa using hb)] at h
      exact SetupResult.noConfusion h
  | cons ev rest ih =>
    intro st c kps1 h
    by_cases hb : bothPresent st = true
    · rcases st with ⟨_ | m, _ | t⟩ <;> simp [bothPresent] at hb
      rw [loop_present] at h
      injection h with _ h2
      exact ⟨[], ev :: rest, m, t, rfl, by simp, rfl, h2⟩
    · rw [loop_cons hostIP kps st ev rest (by simpa using hb)] at h
      cases ev with
      | mysqlProcs mps =>
        obtain ⟨pre, post, m, t, e, hd, hh, hi⟩ := ih (heldStep st (Event.mysqlProcs mps)) c kps1 h
        exact ⟨Event.mysqlProcs mps :: pre, post, m, t, by simp [e],
          by simpa [Event.isDeposit] using hd, by simpa [heldFrom] using hh, hi⟩
      | proxyRecords tprs =>
        obtain ⟨pre, post, m, t, e, hd, hh, hi⟩ :=
          ih (heldStep st (Event.proxyRecords tprs)) c kps1 h
        exact ⟨Event.proxyRecords tprs :: pre, post, m, t, by simp [e],
          by simpa [Event.isDeposit] using hd, by simpa [heldFrom] using hh, hi⟩
      | err e => simp at h
      | ctxDone e => simp at h

/-! ## The join barrier: properties -/

/-- C9, as stated, fails: a session snapshot with no entries that is a nil slice and then a
routing snapshot are deposited, and no error or cancellation comes before them. Setup does not
return the join: with no further event it stays in `select`, and when an error follows it
returns that error. -/
theorem C9_counterexample :
    Setup (returning exampleCanon) []
        [Event.mysqlProcs none, Event.proxyRecords (some [exampleRecord "10.0.0.5" 5000])] =
      SetupResult.blocked ∧
    Setup (returning exampleCanon) []
        [Event.mysqlProcs none, Event.proxyRecords (some [exampleRecord "10.0.0.5" 5000]),
          Event.err "mysql: bad connection"] =
      SetupResult.returned true (Run.done ([], some "mysql: bad connection")) := by
  decide

/-- C9, amended: over the sequence of events its `select` receives, Setup returns the outcome of
the join of the two held snapshots as soon as both a session snapshot and a routing snapshot
that are non-nil slices have been deposited with no error or cancellation event before (a
non-nil snapshot with no entries counts, a nil slice leaves Setup waiting); it returns
successfully only in that way; and if an error event is received while the two held snapshots
are not both non-nil, Setup calls `cancel` and returns that error with the list of joined records
unchanged, whatever events follow. -/
theorem C9_join_barrier (hostIP : String → Run (String × Option String))
    (kps : List KimoProcess) (events : List Event) :
    (∀ pre post m t, events = pre ++ post → (∀ ev ∈ pre, ev.isDeposit = true) →
      (∀ k, k < pre.length → bothPresent (heldFrom (none, none) (pre.take k)) = false) →
      heldFrom (none, none) pre = (some m, some t) →
      Setup hostIP kps events =
        SetupResult.returned false (InitializeKimoProcesses hostIP kps m t)) ∧
    (∀ c kps1, Setup hostIP kps events = SetupResult.returned c (Run.done (kps1, none)) →
      ∃ pre post m t, events = pre ++ post ∧ (∀ ev ∈ pre, ev.isDeposit = true) ∧
        heldFrom (none, none) pre = (some m, some t) ∧
        InitializeKimoProcesses hostIP kps m t = Run.done (kps1, none)) ∧
    (∀ pre e post, events = pre ++ Event.err e :: post → (∀ ev ∈ pre, ev.isDeposit = true) →
      (∀ k, k ≤ pre.length → bothPresent (heldFrom (none, none) (pre.take k)) = false) →
      Setup hostIP kps events = SetupResult.returned true (Run.done (kps, some e))) := by
  refine ⟨?_, ?_, ?_⟩
  · intro pre post m t e hd hk hh
    subst e
    exact loop_success hostIP kps pre post m t (none, none) hd hk hh
  · intro c kps1 h
    exact loop_returned_ok hostIP kps events (none, none) c kps1 h
  · intro pre e post he hd hk
    subst he
    exact loop_failure hostIP kps pre post (Event.err e) (none, none) hd hk

/-- C9, amended, at concrete inputs: the routing snapshot arrives first and the session snapshot
is a non-nil slice with no entries, so Setup returns the empty join and ignores the error that
follows; and an error that arrives after the routing snapshot alone is returned. -/
theorem C9_join_barrier_witness :
    Setup (returning exampleCanon) []
        ([Event.proxyRecords (some [exampleRecord "10.0.0.5" 5000]), Event.mysqlProcs (some [])] ++
          [Event.err "late"]) =
      SetupResult.returned false (InitializeKimoProcesses (returning exampleCanon) [] []
        [exampleRecord "10.0.0.5" 5000]) ∧
    Setup (returning exampleCanon) []
        ([Event.proxyRecords (some [exampleRecord "10.0.0.5" 5000])] ++
          Event.err "mysql: bad connection" :: [Event.mysqlProcs (some [])]) =
      SetupResult.returned true (Run.done ([], some "mysql: bad connection")) :=
  ⟨(C9_join_barrier (returning exampleCanon) []
      ([Event.proxyRecords (some [exampleRecord "10.0.0.5" 5000]),
        Event.mysqlProcs (some [])] ++ [Event.err "late"])).1
      [Event.proxyRecords (some [exampleRecord "10.0.0.5" 5000]), Event.mysqlProcs (some [])]
      [Event.err "late"] [] [exampleRecord "10.0.0.5" 5000] rfl (by decide) (by decide)
      (by decide),
    (C9_join_barrier (returning exampleCanon) []
      ([Event.proxyRecords (some [exampleRecord "10.0.0.5" 5000])] ++
        Event.err "mysql: bad connection" :: [Event.mysqlProcs (some [])])).2.2
      [Event.proxyRecords (some [exampleRecord "10.0.0.5" 5000])] "mysql: bad connection"
      [Event.mysqlProcs (some [])] rfl (by decide) (by decide)⟩

/-! ## The parsers: lemmas -/

theorem digit_of_isDigit (c : Char) (h : IsDigit c) :
    ParseUint.digit c = some (c.toNat - 48) := by
  unfold IsDigit at h
  simp [ParseUint.digit, h]

theorem digit_of_not_isDigit (c : Char) (h : ¬ IsDigit c) :
    ParseUint.digit c = none ∨ ∃ d, 10 ≤ d ∧ ParseUint.digit c = some d := by
  unfold IsDigit at h
  unfold ParseUint.digit
  rw [if_neg h]
  by_cases hl : 97 ≤ lower c.toNat ∧ lower c.toNat ≤ 122
  · right
    exact ⟨lower c.toNat - 97 + 10, by omega, by rw [if_pos hl]⟩
  · left
    rw [if_neg hl]

theorem loop_not_digit (n : Nat) (c : Char) (rest : List Char) (h : ¬ IsDigit c) :
    ParseUint.loop 4294967295 n (c :: rest) = (0, some NumError.ErrSyntax) := by
  rcases digit_of_not_isDigit c h with hd | ⟨d, hd10, hd⟩
  · simp [ParseUint.loop, hd]
  · simp [ParseUint.loop, hd, hd10]

theorem loop_digit (n : Nat) (c : Char) (rest : List Char) (hn : n ≤ 4294967295)
    (h : IsDigit c) :
    ParseUint.loop 4294967295 n (c :: rest) =
      if 10 * n + (c.toNat - 48) > 4294967295 then (4294967295, some NumError.ErrRange)
      else ParseUint.loop 4294967295 (10 * n + (c.toNat - 48)) rest := by
  have hd := digit_of_isDigit c h
  unfold IsDigit at h
  have h10 : ¬ (c.toNat - 48 ≥ 10) := by omega
  have hcut : ¬ (n ≥ (2 ^ 64 - 1) / 10 + 1) := by
    norm_num
    omega
  have hm : (n * 10) % 2 ^ 64 = 10 * n := by
    norm_num
    omega
  have hn1 : (10 * n + (c.toNat - 48)) % 2 ^ 64 = 10 * n + (c.toNat - 48) := by
    norm_num
    omega
  have hlt : ¬ (10 * n + (c.toNat - 48) < 10 * n) := by omega
  simp only [ParseUint.loop, hd, h10, hcut, if_false, hm, hn1, hlt, false_or]

theorem decFold_cons (n : Nat) (c : Char) (s : List Char) :
    decFold n (c :: s) = decFold (10 * n + (c.toNat - 48)) s := rfl

theorem decFold_append (n : Nat) (s t : List Char) :
    decFold n (s ++ t) = decFold (decFold n s) t := by
  simp [decFold, List.foldl_append]

theorem le_decFold (s : List Char) : ∀ n, n ≤ decFold n s := by
  induction s with
  | nil => intro n; exact Nat.le_refl _
  | cons c s ih =>
    intro n
    rw [decFold_cons]
    exact Nat.le_trans (by omega) (ih _)

theorem loop_all_digits (s : List Char) :
    ∀ n, n ≤ 4294967295 → (∀ c ∈ s, IsDigit c) → decFold n s ≤ 4294967295 →
      ParseUint.loop 4294967295 n s = (decFold n s, none) := by
  induction s with
  | nil => intro n _ _ _; rfl
  | cons c s ih =>
    intro n hn hd hv
    rw [decFold_cons] at hv
    have hstep : 10 * n + (c.toNat - 48) ≤ 4294967295 := Nat.le_trans (le_decFold s _) hv
    rw [loop_digit n c s hn (hd c (List.mem_cons_self _ _)), if_neg (by omega), decFold_cons]
    exact ih _ hstep (fun x hx => hd x (List.mem_cons_of_mem _ hx)) hv

theorem loop_bad_char (pre : List Char) (c : Char) (post : List Char) :
    ∀ n, n ≤ 4294967295 → (∀ x ∈ pre, IsDigit x) → ¬ IsDigit c →
      decFold n pre ≤ 4294967295 →
      ParseUint.loop 4294967295 n (pre ++ c :: post) = (0, some NumError.ErrSyntax) := by
  induction pre with
  | nil => intro n _ _ hc _; exact loop_not_digit n c post hc
  | cons x pre ih =>
    intro n hn hd hc hv
    rw [decFold_cons] at hv
    have hstep : 10 * n + (x.toNat - 48) ≤ 4294967295 := Nat.le_trans (le_decFold pre _) hv
    rw [List.cons_append, loop_digit n x _ hn (hd x (List.mem_cons_self _ _)),
      if_neg (by omega)]
    exact ih _ hstep (fun y hy => hd y (List.mem_cons_of_mem _ hy)) hc hv

theorem loop_range (pre post : List Char) :
    ∀ n, n ≤ 4294967295 → (∀ x ∈ pre, IsDigit x) → decFold n pre > 4294967295 →
      ParseUint.loop 4294967295 n (pre ++ post) = (4294967295, some NumError.ErrRange) := by
  induction pre with
  | nil =>
    intro n hn _ hv
    simp only [decFold, List.foldl_nil] at hv
    omega
  | cons x pre ih =>
    intro n hn hd hv
    rw [decFold_cons] at hv
    rw [List.cons_append, loop_digit n x _ hn (hd x (List.mem_cons_self _ _))]
    by_cases hstep : 10 * n + (x.toNat - 48) > 4294967295
    · rw [if_pos hstep]
    · rw [if_neg hstep]
      exact ih (10 * n + (x.toNat - 48)) (by omega)
        (fun y hy => hd y (List.mem_cons_of_mem _ hy)) hv

/-- Every run of the loop of `ParseUint` ends in one of three ways. -/
theorem loop_trichotomy (s : List Char) :
    ∀ n, n ≤ 4294967295 →
      ((∀ c ∈ s, IsDigit c) ∧ decFold n s ≤ 4294967295 ∧
        ParseUint.loop 4294967295 n s = (decFold n s, none)) ∨
      ((¬ ∀ c ∈ s, IsDigit c) ∧
        ParseUint.loop 4294967295 n s = (0, some NumError.ErrSyntax)) ∨
      ParseUint.loop 4294967295 n s = (4294967295, some NumError.ErrRange) := by
  induction s with
  | nil =>
    intro n hn
    left
    exact ⟨by simp, hn, rfl⟩
  | cons c s ih =>
    intro n hn
    by_cases hc : IsDigit c
    · rw [loop_digit n c s hn hc, decFold_cons]
      by_cases hstep : 10 * n + (c.toNat - 48) > 4294967295
      · right
        right
        rw [if_pos hstep]
      · rw [if_neg hstep]
        rcases ih (10 * n + (c.toNat - 48)) (by omega) with ⟨h1, h2, h3⟩ | ⟨h1, h2⟩ | h1
        · left
          refine ⟨?_, h2, h3⟩
          intro x hx
          rcases List.mem_cons.1 hx with rfl | hx
          · exact hc
          · exact h1 x hx
        · right
          left
          refine ⟨?_, h2⟩
          intro hall
          exact h1 (fun x hx => hall x (List.mem_cons_of_mem _ hx))
        · right
          right
          exact h1
    · right
      left
      exact ⟨fun hall => hc (hall c (List.mem_cons_self _ _)), loop_not_digit n c s hc⟩

theorem digitChar_spec :
    ∀ k, k < 10 → IsDigit (Nat.digitChar k) ∧ (Nat.digitChar k).toNat - 48 = k := by
  decide

theorem toDigitsCore_spec (fuel : Nat) :
    ∀ n ds, n < fuel →
      ∃ pre, Nat.toDigitsCore 10 fuel n ds = pre ++ ds ∧ pre ≠ [] ∧ (∀ c ∈ pre, IsDigit c) ∧
        ∀ a, decFold a pre = a * 10 ^ pre.length + n := by
  induction fuel with
  | zero => intro n ds h; omega
  | succ fuel ih =>
    intro n ds h
    have hd := digitChar_spec (n % 10) (Nat.mod_lt _ (by omega))
    by_cases h0 : n / 10 = 0
    · refine ⟨[Nat.digitChar (n % 10)], by simp [Nat.toDigitsCore, h0], by simp, ?_, ?_⟩
      · intro c hc
        rw [List.mem_singleton.1 hc]
        exact hd.1
      · intro a
        simp only [decFold, List.foldl_cons, List.foldl_nil, hd.2, List.length_singleton]
        omega
    · obtain ⟨pre, e, -, hdig, hval⟩ := ih (n / 10) (Nat.digitChar (n % 10) :: ds) (by omega)
      refine ⟨pre ++ [Nat.digitChar (n % 10)], by simp [Nat.toDigitsCore, h0, e], by simp,
        ?_, ?_⟩
      · intro c hc
        rcases List.mem_append.1 hc with hc | hc
        · exact hdig c hc
        · rw [List.mem_singleton.1 hc]
          exact hd.1
      · intro a
        rw [decFold_append, hval a]
        simp only [decFold, List.foldl_cons, List.foldl_nil, hd.2, List.length_append,
          List.length_singleton, pow_succ]
        have := Nat.div_add_mod n 10
        nlinarith [this]

/-- The decimal representation that `Nat.repr` prints is a decimal numeral of the number. -/
theorem decimalOf_repr (n : Nat) : DecimalOf (Nat.repr n).toList n := by
  obtain ⟨pre, e, hne, hdig, hval⟩ := toDigitsCore_spec (n + 1) n [] (by omega)
  have hl : (Nat.repr n).toList = pre := by
    simp [Nat.repr, Nat.toDigits, e, List.asString]
  rw [hl]
  exact ⟨hne, hdig, by simpa using hval 0⟩

theorem ParseUint_of_ne_nil (s : List Char) (h : s ≠ []) :
    ParseUint s 32 = ParseUint.loop 4294967295 0 s := by
  simp [ParseUint, h]

theorem ParseUint_decimal (s : List Char) (n : Nat) (h : DecimalOf s n) (hn : n ≤ 4294967295) :
    ParseUint s 32 = (n, none) := by
  obtain ⟨h0, hd, hv⟩ := h
  rw [ParseUint_of_ne_nil s h0, loop_all_digits s 0 (by omega) hd (by omega), hv]

theorem ParseUint_cases (s : List Char) :
    (∃ n, DecimalOf s n ∧ n ≤ 4294967295 ∧ ParseUint s 32 = (n, none)) ∨
      ParseUint s 32 = (0, some NumError.ErrSyntax) ∨
      ParseUint s 32 = (4294967295, some NumError.ErrRange) := by
  by_cases h0 : s = []
  · right
    left
    simp [ParseUint, h0]
  · rw [ParseUint_of_ne_nil s h0]
    rcases loop_trichotomy s 0 (by omega) with ⟨h1, h2, h3⟩ | ⟨-, h2⟩ | h1
    · left
      exact ⟨decFold 0 s, ⟨h0, h1, rfl⟩, h2, h3⟩
    · right
      left
      exact h2
    · right
      right
      exact h1

theorem ReturnResponse_loop_eq (kps : List KimoProcess) :
    ∀ processes, ReturnResponse.loop processes kps =
      processes ++ kps.map ReturnResponse.record := by
  induction kps with
  | nil => intro processes; simp [ReturnResponse.loop]
  | cons kp rest ih => intro processes; simp [ReturnResponse.loop, ih]

/-! ## The response: properties -/

/-- C8, as stated, fails: the elapsed-time string `4294967296` is out of the 32-bit range and
fails to parse, but the time of the response record is 4294967295, not 0. -/
theorem C8_counterexample :
    (ParseUint (exampleJoined "4294967296").MysqlProcess.Time.toList 32).2 =
        some NumError.ErrRange ∧
      (ReturnResponse [exampleJoined "4294967296"]).Processes.map Process.Time =
        [4294967295] := by
  decide

/-- C8, amended: the response has one record for every joined record, in order, built by the
loop body; the time of the record is `n` when the elapsed-time string is the decimal
representation (or any decimal numeral, leading zeros allowed) of an unsigned 32-bit integer
`n`; it is 0 when the string is empty or when its first character that
is not a decimal digit comes while the digits before it make a number of at most `2^32 - 1` (so
for text such as `abc`, for a signed number, for `12x`); and it is 4294967295 when some leading
digits of the string make a number above `2^32 - 1` (a number out of the 32-bit range). -/
theorem C8_elapsed_time (kps : List KimoProcess) :
    (ReturnResponse kps).Processes = kps.map ReturnResponse.record ∧
    (ReturnResponse kps).Processes.length = kps.length ∧
    ∀ kp : KimoProcess,
      (∀ n, kp.MysqlProcess.Time = Nat.repr n → n ≤ 4294967295 →
        (ReturnResponse.record kp).Time = n) ∧
      (∀ n, DecimalOf kp.MysqlProcess.Time.toList n → n ≤ 4294967295 →
        (ReturnResponse.record kp).Time = n) ∧
      (kp.MysqlProcess.Time.toList = [] → (ReturnResponse.record kp).Time = 0) ∧
      (∀ pre c post, kp.MysqlProcess.Time.toList = pre ++ c :: post →
        (∀ x ∈ pre, IsDigit x) → ¬ IsDigit c → decFold 0 pre ≤ 4294967295 →
        (ReturnResponse.record kp).Time = 0) ∧
      (∀ pre post, kp.MysqlProcess.Time.toList = pre ++ post →
        (∀ x ∈ pre, IsDigit x) → decFold 0 pre > 4294967295 →
        (ReturnResponse.record kp).Time = 4294967295) := by
  have hmap : (ReturnResponse kps).Processes = kps.map ReturnResponse.record := by
    simp [ReturnResponse, ReturnResponse_loop_eq]
  refine ⟨hmap, by simp [hmap], ?_⟩
  intro kp
  have htime : (ReturnResponse.record kp).Time =
      (ParseUint kp.MysqlProcess.Time.toList 32).1 % 2 ^ 32 := rfl
  have hdecimal : ∀ n, DecimalOf kp.MysqlProcess.Time.toList n → n ≤ 4294967295 →
      (ReturnResponse.record kp).Time = n := by
    intro n hdec hn
    rw [htime, ParseUint_decimal _ n hdec hn]
    norm_num
    omega
  refine ⟨?_, hdecimal, ?_, ?_, ?_⟩
  · intro n hrepr hn
    exact hdecimal n (by rw [hrepr]; exact decimalOf_repr n) hn
  · intro h0
    rw [htime, h0]
    rfl
  · intro pre c post e hd hc hv
    have hne : kp.MysqlProcess.Time.toList ≠ [] := by
      rw [e]
      simp
    rw [htime, ParseUint_of_ne_nil _ hne, e, loop_bad_char pre c post 0 (by omega) hd hc hv]
    rfl
  · intro pre post e hd hv
    have hne : kp.MysqlProcess.Time.toList ≠ [] := by
      intro h0
      rw [h0] at e
      have hp : pre = [] := (List.append_eq_nil.1 e.symm).1
      subst hp
      simp [decFold] at hv
    rw [htime, ParseUint_of_ne_nil _ hne, e, loop_range pre post 0 (by omega) hd hv]
    rfl

/-- C8, amended, at the inputs of the specification: the elapsed-time strings `120` and `abc`
give the times 120 and 0, and the response has a record for each of the three joined records. -/
theorem C8_elapsed_time_witness :
    (ReturnResponse [exampleJoined "120", exampleJoined "abc", exampleJoined ""]).Processes.length
        = 3 ∧
      (ReturnResponse.record (exampleJoined "120")).Time = 120 ∧
      (ReturnResponse.record (exampleJoined "abc")).Time = 0 :=
  ⟨(C8_elapsed_time [exampleJoined "120", exampleJoined "abc", exampleJoined ""]).2.1,
    ((C8_elapsed_time []).2.2 (exampleJoined "120")).2.1 120 (by decide) (by decide),
    ((C8_elapsed_time []).2.2 (exampleJoined "abc")).2.2.2.1 [] 'a' ['b', 'c'] (by decide)
      (by decide) (by decide) (by decide)⟩

/-! ## Port validation: lemmas -/

theorem not_sign_of_isDigit (c : Char) (h : IsDigit c) : c ≠ '+' ∧ c ≠ '-' := by
  constructor
  · rintro rfl
    exact absurd h (by decide)
  · rintro rfl
    exact absurd h (by decide)

/-- The string handed to `ParseUint` by `ParseInt`, and the sign it has picked off. -/
theorem ParseInt_cons (c : Char) (rest : List Char) :
    ParseInt (c :: rest) 32 =
      (let neg : Bool := c = '-'
       let r := ParseUint (if c = '+' then rest else if c = '-' then rest else c :: rest) 32
       if r.2 ≠ none ∧ r.2 ≠ some NumError.ErrRange then (0, r.2)
       else if neg = false ∧ r.1 ≥ 2147483648 then ((2147483647 : Int), some NumError.ErrRange)
       else if neg = true ∧ r.1 > 2147483648 then ((-2147483648 : Int), some NumError.ErrRange)
       else ((if neg then -(r.1 : Int) else (r.1 : Int)), none)) := by
  simp only [ParseInt]
  norm_num

theorem ParseInt_unsigned (s : List Char) (n : Nat) (h : DecimalOf s n) (hn : n ≤ 2147483647) :
    ParseInt s 32 = ((n : Int), none) := by
  have hu := ParseUint_decimal s n h (by omega)
  obtain ⟨h0, hd, -⟩ := h
  rcases s with _ | ⟨c, rest⟩
  · exact absurd rfl h0
  · have hc := not_sign_of_isDigit c (hd c (List.mem_cons_self _ _))
    rw [ParseInt_cons]
    simp only [hc.1, hc.2, if_false, hu]
    have h1 : ¬ (n ≥ 2147483648) := by omega
    simp [h1]

theorem ParseInt_plus (ds : List Char) (n : Nat) (h : DecimalOf ds n) (hn : n ≤ 2147483647) :
    ParseInt ('+' :: ds) 32 = ((n : Int), none) := by
  have hu := ParseUint_decimal ds n h (by omega)
  rw [ParseInt_cons]
  simp only [if_true, hu]
  have h1 : ¬ (n ≥ 2147483648) := by omega
  simp [h1]

theorem ParseInt_minus (ds : List Char) (n : Nat) (h : DecimalOf ds n) (hn : n ≤ 2147483648) :
    ParseInt ('-' :: ds) 32 = (-(n : Int), none) := by
  have hu := ParseUint_decimal ds n h (by omega)
  rw [ParseInt_cons]
  have hne : ¬ ('-' = '+') := by decide
  simp only [hne, if_false, if_true, hu]
  have h1 : ¬ (n > 2147483648) := by omega
  simp [h1]

theorem ParseInt_ok_iff (s : List Char) (z : Int) :
    ParseInt s 32 = (z, none) ↔
      SignedDecimalOf s z ∧ -2147483648 ≤ z ∧ z ≤ 2147483647 := by
  constructor
  · intro h
    rcases s with _ | ⟨c, rest⟩
    · simp [ParseInt] at h
    · rw [ParseInt_cons] at h
      rcases ParseUint_cases (if c = '+' then rest else if c = '-' then rest else c :: rest)
        with ⟨n, hdec, hn, hu⟩ | hu | hu
      · rw [hu] at h
        simp only [ne_eq, not_true_eq_false, false_and, if_false] at h
        by_cases hneg : c = '-'
        · subst hneg
          have hne : ¬ ('-' = '+') := by decide
          simp only [hne, if_false, if_true] at hdec
          by_cases hbig : n > 2147483648
          · simp [hbig] at h
          · simp [hbig] at h
            subst h
            exact ⟨⟨rest, n, hdec, Or.inr (Or.inr ⟨rfl, rfl⟩)⟩, by omega, by omega⟩
        · by_cases hbig : n ≥ 2147483648
          · simp [hneg, hbig] at h
          · simp [hneg, hbig] at h
            subst h
            by_cases hplus : c = '+'
            · subst hplus
              simp only [if_true] at hdec
              exact ⟨⟨rest, n, hdec, Or.inr (Or.inl ⟨rfl, rfl⟩)⟩, by omega, by omega⟩
            · simp only [hplus, hneg, if_false] at hdec
              exact ⟨⟨c :: rest, n, hdec, Or.inl ⟨rfl, rfl⟩⟩, by omega, by omega⟩
      · rw [hu] at h
        simp at h
      · rw [hu] at h
        by_cases hneg : c = '-'
        · simp [hneg] at h
        · simp [hneg] at h
  · rintro ⟨⟨ds, n, hdec, hs | hs | hs⟩, hlo, hhi⟩
    · obtain ⟨rfl, rfl⟩ := hs
      exact ParseInt_unsigned s n hdec (by omega)
    · obtain ⟨rfl, rfl⟩ := hs
      exact ParseInt_plus ds n hdec (by omega)
    · obtain ⟨rfl, rfl⟩ := hs
      exact ParseInt_minus ds n hdec (by omega)

theorem ParseInt_error_of_not_ok (s : List Char) (h : (ParseInt s 32).2 = none) :
    ∃ z, ParseInt s 32 = (z, none) :=
  ⟨(ParseInt s 32).1, by rw [← h]⟩

theorem parsePortParam_present (query : String → Option (List String)) (p0 : String)
    (more : List String) (hq : query "port" = some (p0 :: more)) :
    Daemon.parsePortParam query =
      if (ParseInt p0.toList 32).2 ≠ none then (0, (ParseInt p0.toList 32).2)
      else (((ParseInt p0.toList 32).1 % 4294967296).toNat, none) := by
  simp only [Daemon.parsePortParam, hq]
  norm_num

/-! ## Port validation: properties -/

/-- C7, as stated, fails in both directions: the string `-1` is not an unsigned integer, yet
`parsePortParam` succeeds with the value 4294967295 and the handler does not answer 400; the
string `4294967295` is the decimal representation of `2^32 - 1`, yet `parsePortParam` returns a
range error and the handler answers 400. -/
theorem C7_counterexample :
    Daemon.parsePortParam (portQuery "-1") = (4294967295, none) ∧
      Daemon.conns DaemonProcess.IsEmpty (portQuery "-1") ([exampleConn 3306 "LISTEN" 42], none)
          ([exampleProc 42 "mysqld"], none) ("db-1", none) =
        Response.error "process not found!" 404 ∧
      DecimalOf "4294967295".toList (2 ^ 32 - 1) ∧
      Daemon.parsePortParam (portQuery "4294967295") = (0, some NumError.ErrRange) ∧
      Daemon.conns DaemonProcess.IsEmpty (portQuery "4294967295")
          ([exampleConn 3306 "LISTEN" 42], none) ([exampleProc 42 "mysqld"], none)
          ("db-1", none) =
        Response.error "port param is required" 400 := by
  decide

/-- C7, amended: for every request whose first `port` value is the string `p0`, `parsePortParam`
succeeds with the value `v` if and only if `p0` is a decimal numeral, with an optional sign, of
an integer `z` with `-2^31 ≤ z ≤ 2^31 - 1` and `v` is `z` reduced modulo `2^32` (so `v = z` for
`0 ≤ z ≤ 2^31 - 1`); in every other case (a value above `2^31 - 1` or below `-2^31`, text that
is not a number, the empty string) it returns an error and the handler answers 400. -/
theorem C7_port_validation (isEmpty : DaemonProcess → Bool)
    (query : String → Option (List String)) (p0 : String) (more : List String)
    (hq : query "port" = some (p0 :: more)) :
    (∀ v, Daemon.parsePortParam query = (v, none) ↔
      ∃ z : Int, SignedDecimalOf p0.toList z ∧ -2147483648 ≤ z ∧ z ≤ 2147483647 ∧
        v = (z % 4294967296).toNat) ∧
    (∀ n, (p0 = Nat.repr n ∨ DecimalOf p0.toList n) → n ≤ 2147483647 →
      Daemon.parsePortParam query = (n, none)) ∧
    ((¬ ∃ z : Int, SignedDecimalOf p0.toList z ∧ -2147483648 ≤ z ∧ z ≤ 2147483647) →
      (Daemon.parsePortParam query).2 ≠ none ∧
      ∀ (Connections : List gopsutilNet.ConnectionStat × Option String)
        (Processes : List gopsutilProcess.Process × Option String)
        (Hostname : String × Option String),
        Daemon.conns isEmpty query Connections Processes Hostname =
          Response.error "port param is required" 400) := by
  have hp := parsePortParam_present query p0 more hq
  refine ⟨?_, ?_, ?_⟩
  · intro v
    constructor
    · intro h
      rw [hp] at h
      by_cases he : (ParseInt p0.toList 32).2 = none
      · rw [if_neg (fun hne => hne he)] at h
        have hv : v = ((ParseInt p0.toList 32).1 % 4294967296).toNat := by
          injection h with h1 _
          exact h1.symm
        obtain ⟨z, hz⟩ := ParseInt_error_of_not_ok _ he
        obtain ⟨h1, h2, h3⟩ := (ParseInt_ok_iff _ z).1 hz
        refine ⟨z, h1, h2, h3, ?_⟩
        rw [hv, hz]
      · rw [if_pos he] at h
        injection h with _ h2
        exact absurd h2 he
    · rintro ⟨z, h1, h2, h3, rfl⟩
      have hz := (ParseInt_ok_iff p0.toList z).2 ⟨h1, h2, h3⟩
      rw [hp, hz]
      simp
  · intro n hdec hn
    have hdec : DecimalOf p0.toList n := by
      rcases hdec with h | h
      · rw [h]
        exact decimalOf_repr n
      · exact h
    have hz := ParseInt_unsigned p0.toList n hdec hn
    rw [hp, hz]
    simp only [ne_eq, not_true_eq_false, if_false]
    congr 1
    omega
  · intro hno
    have he : (ParseInt p0.toList 32).2 ≠ none := by
      intro he
      obtain ⟨z, hz⟩ := ParseInt_error_of_not_ok _ he
      exact hno ⟨z, (ParseInt_ok_iff _ z).1 hz⟩
    have hperr : (Daemon.parsePortParam query).2 ≠ none := by
      rw [hp, if_pos he]
      exact he
    refine ⟨hperr, ?_⟩
    intro Connections Processes Hostname
    simp only [Daemon.conns, hperr, ne_eq, not_false_eq_true, if_true]

/-- C7, amended, at concrete inputs: the request `port=3306` parses to 3306, and the request
`port=70000x` is answered with 400. -/
theorem C7_port_validation_witness :
    portQuery "3306" "port" = some ("3306" :: []) ∧
      Daemon.parsePortParam (portQuery "3306") = (3306, none) ∧
      Daemon.conns DaemonProcess.IsEmpty (portQuery "70000x") ([exampleConn 3306 "LISTEN" 42], none)
          ([exampleProc 42 "mysqld"], none) ("db-1", none) =
        Response.error "port param is required" 400 :=
  ⟨by decide,
    (C7_port_validation DaemonProcess.IsEmpty (portQuery "3306") "3306" []
      (by decide)).2.1 3306
      (Or.inr (by decide)) (by decide),
    by decide⟩

end Kimo
